import Mathlib

/-!
Verification development for the per-peer transport negotiation core of a
WebRTC SFU (pkg/rtc/transport.go and the DynacastQuality aggregator).

The Go source is shallowly embedded: pure SDP helpers become Lean functions
over a structural SDP model; the stateful `PCTransport` and `DynacastQuality`
objects become explicit state-passing functions, with callback invocations
returned as explicit emission lists.  External calls into the pion WebRTC
stack are modelled by a small abstract peer-connection state (signaling
state, gathering flag, local/remote descriptions, applied candidates)
following JSEP semantics for the operations this file uses.
-/

namespace LiveKit

/-! ## Structural SDP model (pion `sdp.SessionDescription`)

Only the parts consulted by transport.go: attributes at session level and at
each media description, looked up by key (pion's `Attribute` returns the
value of the first attribute with the given key). -/

structure Attr where
  key : String
  value : String
deriving DecidableEq, Repr

structure MediaDesc where
  attributes : List Attr
deriving DecidableEq, Repr

structure SdpSession where
  attributes : List Attr
  mediaDescriptions : List MediaDesc
deriving DecidableEq, Repr

/-- pion `desc.Attribute(key)`: value of the first attribute with this key. -/
def attrLookup : List Attr → String → Option String
  | [], _ => Option.none
  | a :: rest, k => if a.key = k then some a.value else attrLookup rest k

/-- Split a character list on a separator character (Go `strings.Split`
with a one-character separator, over the string's characters). -/
def splitOnChar (sep : Char) : List Char → List (List Char)
  | [] => [[]]
  | c :: rest =>
    match splitOnChar sep rest with
    | [] => [[]]
    | g :: gs => if c = sep then [] :: g :: gs else (c :: g) :: gs

/-- Go `strings.Split(s, " ")`. -/
def splitSpaces (s : String) : List String :=
  (splitOnChar ' ' s.data).map (fun cs => String.mk cs)

/-- Whether the first list is an initial segment of the second. -/
def headMatches : List Char → List Char → Bool
  | [], _ => true
  | _ :: _, [] => false
  | p :: ps, c :: cs => (p = c : Bool) && headMatches ps cs

/-- Go `strings.Contains`: the first list occurs inside the second. -/
def containsSeq (p : List Char) : List Char → Bool
  | [] => headMatches p []
  | c :: cs => headMatches p (c :: cs) || containsSeq p cs

/-! ## extractFingerprint (transport.go lines 808-836) -/

inductive FingerprintError
  | noFingerprint
  | conflictingFingerprints
  | invalidFingerprint
deriving DecidableEq, Repr

/-- The fingerprint attribute values collected from the session level and
every media level, in that order (transport.go lines 809-819). -/
def collectFingerprints (desc : SdpSession) : List String :=
  (match attrLookup desc.attributes "fingerprint" with
   | some f => [f]
   | Option.none => []) ++
  desc.mediaDescriptions.filterMap (fun m => attrLookup m.attributes "fingerprint")

/-- transport.go `extractFingerprint`: collect fingerprints from every level;
no fingerprint anywhere is an error; differing values are an error; the value
must split on a single space into exactly two parts; the function returns
`(parts[1], parts[0])`, i.e. the fingerprint digest first and then the hash
algorithm (Go `return parts[1], parts[0], nil`). -/
def extractFingerprint (desc : SdpSession) : Except FingerprintError (String × String) :=
  match collectFingerprints desc with
  | [] => .error .noFingerprint
  | f0 :: rest =>
    if (f0 :: rest).all (fun m => m = f0) then
      match splitSpaces f0 with
      | [a, b] => .ok (b, a)
      | _ => .error .invalidFingerprint
    else .error .conflictingFingerprints

/-- Follows the spec's words (`extract_fingerprint(sdp) → (algorithm, hash)`):
same collect-and-check discipline, but the returned pair is the hash
algorithm first (the first space-separated token of the attribute value,
e.g. `sha-256`) and the digest second.  Used only to compare against the
source-derived `extractFingerprint`. -/
def specExtractFingerprint (desc : SdpSession) : Except FingerprintError (String × String) :=
  match collectFingerprints desc with
  | [] => .error .noFingerprint
  | f0 :: rest =>
    if (f0 :: rest).all (fun m => m = f0) then
      match splitSpaces f0 with
      | [a, b] => .ok (a, b)
      | _ => .error .invalidFingerprint
    else .error .conflictingFingerprints

/-! ## filterCandidates (transport.go lines 757-795) -/

def attrKeyCandidate : String := "candidate"

/-- Go `strings.Contains(s, "tcp")`. -/
def containsTcp (s : String) : Bool :=
  containsSeq "tcp".data s.data

/-- The per-attribute keep decision of the filter loop in
transport.go lines 764-781: non-candidate attributes are always kept;
candidate attributes are kept unless `preferTCP` is set and the value does
not contain the substring `"tcp"`. -/
def keepAttribute (preferTCP : Bool) (a : Attr) : Bool :=
  if a.key = attrKeyCandidate then
    if preferTCP then containsTcp a.value else true
  else true

def filterAttributes (preferTCP : Bool) (attrs : List Attr) : List Attr :=
  attrs.filter (keepAttribute preferTCP)

/-- transport.go `filterCandidates`: apply `filterAttributes` at the session
level and at every media level (the SDP marshal/unmarshal round trip is
abstracted away; it preserves the attribute lists). -/
def filterCandidates (preferTCP : Bool) (s : SdpSession) : SdpSession :=
  { attributes := filterAttributes preferTCP s.attributes,
    mediaDescriptions := s.mediaDescriptions.map
      (fun m => { m with attributes := filterAttributes preferTCP m.attributes }) }

/-- The transport field of a candidate attribute value: the third
space-separated token (`candidate:<foundation> <component> <transport> ...`,
RFC 5245 grammar). -/
def specCandidateTransport (value : String) : String :=
  (((splitSpaces value).drop 2).headD "")

/-- Follows the spec's words: with `prefer_tcp` set, drop exactly those
candidate attributes whose transport is not TCP; keep everything else.
Used only to compare against the source-derived `keepAttribute`. -/
def specKeepAttribute (preferTCP : Bool) (a : Attr) : Bool :=
  if a.key = attrKeyCandidate then
    if preferTCP then specCandidateTransport a.value = "tcp" else true
  else true

/-- Follows the spec's words for `filter_candidates`; used only to compare
against the source-derived `filterCandidates`. -/
def specFilterCandidates (preferTCP : Bool) (s : SdpSession) : SdpSession :=
  { attributes := s.attributes.filter (specKeepAttribute preferTCP),
    mediaDescriptions := s.mediaDescriptions.map
      (fun m => { m with attributes := m.attributes.filter (specKeepAttribute preferTCP) }) }

/-! ## DynacastQuality (quality aggregator source, part_001) -/

/-- `livekit.VideoQuality` protobuf enum; numeric values LOW = 0,
MEDIUM = 1, HIGH = 2, OFF = 3, compared numerically by the Go code. -/
inductive VideoQuality
  | low
  | medium
  | high
  | off
deriving DecidableEq, Repr

/-- The protobuf numeric value, used by the Go `>` comparison. -/
def VideoQuality.val : VideoQuality → Nat
  | .low => 0
  | .medium => 1
  | .high => 2
  | .off => 3

/-- The spec's quality order `OFF < LOW < MEDIUM < HIGH`. -/
def VideoQuality.rank : VideoQuality → Nat
  | .off => 0
  | .low => 1
  | .medium => 2
  | .high => 3

/-- Maximum in the spec's order `OFF < LOW < MEDIUM < HIGH`. -/
def specMaxQual (a b : VideoQuality) : VideoQuality :=
  if a.rank < b.rank then b else a

/-- Go map insert/update, modelled on an association list. -/
def mapSet (m : List (String × VideoQuality)) (k : String) (v : VideoQuality) :
    List (String × VideoQuality) :=
  match m with
  | [] => [(k, v)]
  | (k2, v2) :: rest => if k2 = k then (k, v) :: rest else (k2, v2) :: mapSet rest k v

/-- Go map delete, modelled on an association list. -/
def mapDel (m : List (String × VideoQuality)) (k : String) :
    List (String × VideoQuality) :=
  m.filter (fun e => !(e.1 = k : Bool))

structure DynacastQuality where
  inited : Bool          -- `initialized` in the Go source
  maxSubscriberQuality : List (String × VideoQuality)
  maxSubscriberNodeQuality : List (String × VideoQuality)
  maxSubscribedQuality : VideoQuality
deriving DecidableEq, Repr

/-- `NewDynacastQuality`: empty maps; the other fields take Go zero values
(`false`, and the zero enum value LOW). -/
def newDynacastQuality : DynacastQuality :=
  { inited := false,
    maxSubscriberQuality := [],
    maxSubscriberNodeQuality := [],
    maxSubscribedQuality := .low }

/-- `reset` (called by `Start`/`Restart`): clears the flag and biases the
aggregate to HIGH; the maps are untouched. -/
def resetDynacast (d : DynacastQuality) : DynacastQuality :=
  { d with inited := false, maxSubscribedQuality := .high }

/-- One loop step of `updateQualityChange` (part_001 lines 107-116):
`if max == OFF || (q != OFF && q > max) { max = q }`. -/
def qualAcc (acc q : VideoQuality) : VideoQuality :=
  if acc = .off ∨ (q ≠ .off ∧ acc.val < q.val) then q else acc

/-- The aggregate recomputation of `updateQualityChange`: fold `qualAcc`
over the subscriber map and then the node map, starting from OFF. -/
def computeMaxQuality (d : DynacastQuality) : VideoQuality :=
  (d.maxSubscriberNodeQuality.foldl (fun acc e => qualAcc acc e.2)
    (d.maxSubscriberQuality.foldl (fun acc e => qualAcc acc e.2) .off))

/-- `updateQualityChange` (part_001 lines 104-137); the second component is
the argument of the `onSubscribedMaxQualityChange` callback invocation, or
`none` when the function returns silently. -/
def updateQualityChange (d : DynacastQuality) : DynacastQuality × Option VideoQuality :=
  let m := computeMaxQuality d
  if m = d.maxSubscribedQuality ∧ d.inited = true then (d, Option.none)
  else ({ d with inited := true, maxSubscribedQuality := m }, some m)

/-- `NotifySubscriberMaxQuality` (part_001 lines 71-81): OFF deletes the
entry, anything else upserts; then recompute. -/
def notifySubscriberMaxQuality (subscriberID : String) (quality : VideoQuality)
    (d : DynacastQuality) : DynacastQuality × Option VideoQuality :=
  let d :=
    if quality = .off then
      { d with maxSubscriberQuality := mapDel d.maxSubscriberQuality subscriberID }
    else
      { d with maxSubscriberQuality := mapSet d.maxSubscriberQuality subscriberID quality }
  updateQualityChange d

/-- `NotifySubscriberNodeMaxQuality` (part_001 lines 83-93). -/
def notifySubscriberNodeMaxQuality (nodeID : String) (quality : VideoQuality)
    (d : DynacastQuality) : DynacastQuality × Option VideoQuality :=
  let d :=
    if quality = .off then
      { d with maxSubscriberNodeQuality := mapDel d.maxSubscriberNodeQuality nodeID }
    else
      { d with maxSubscriberNodeQuality := mapSet d.maxSubscriberNodeQuality nodeID quality }
  updateQualityChange d

/-- Follows the spec's words: the aggregate is OFF when both maps are empty,
else the maximum (in the order OFF < LOW < MEDIUM < HIGH) over the union of
the values of both maps. -/
def specAggregate (d : DynacastQuality) : VideoQuality :=
  if d.maxSubscriberQuality = [] ∧ d.maxSubscriberNodeQuality = [] then .off
  else ((d.maxSubscriberQuality.map Prod.snd) ++
        (d.maxSubscriberNodeQuality.map Prod.snd)).foldl specMaxQual .off

/-- The notify events of the aggregator, for reasoning over call sequences. -/
inductive QualityEvent
  | sub (id : String) (q : VideoQuality)
  | node (id : String) (q : VideoQuality)
deriving DecidableEq, Repr

def qualityStep (d : DynacastQuality) : QualityEvent → DynacastQuality
  | .sub id q => (notifySubscriberMaxQuality id q d).1
  | .node id q => (notifySubscriberNodeMaxQuality id q d).1

def runQuality (d : DynacastQuality) : List QualityEvent → DynacastQuality
  | [] => d
  | ev :: evs => runQuality (qualityStep d ev) evs

/-! ## The PCTransport negotiation state machine (transport.go)

The pion peer connection is abstracted to the state this file's code
observes and mutates: a closed flag, the ICE gathering flag, the JSEP
signaling state, the local and remote session descriptions, and the list of
candidates applied so far.  A session description is abstracted to its type
(offer or answer; the only types this code handles) together with the ICE
credential `isRemoteOfferRestartICE` would extract from it (descriptions are
assumed parseable; a parse failure simply surfaces an error and changes no
state). -/

inductive SDPType
  | offer
  | answer
deriving DecidableEq, Repr

structure SessionDesc where
  sdpType : SDPType
  iceCredential : String  -- "ufrag:pwd" as computed by isRemoteOfferRestartICE
deriving DecidableEq, Repr

inductive SignalingState
  | stable
  | haveLocalOffer
  | haveRemoteOffer
deriving DecidableEq, Repr

structure OfferOptions where
  iceRestart : Bool
deriving DecidableEq, Repr

inductive TransportError
  | iceRestartWithoutLocalSDP  -- ErrIceRestartWithoutLocalSDP
  | invalidSignalingState      -- pion's rejection of a description in the wrong state
  | noRemoteDescription        -- pion's AddICECandidate without a remote description
deriving DecidableEq, Repr

structure PeerConn where
  closed : Bool
  gathering : Bool  -- ICEGatheringState() == Gathering
  signaling : SignalingState
  localDesc : Option SessionDesc
  remoteDesc : Option SessionDesc
  appliedCandidates : List String
deriving DecidableEq, Repr

/-- pion `pc.SetRemoteDescription` (JSEP): an offer is accepted in stable or
have-remote-offer, an answer in have-local-offer (moving back to stable);
anything else is rejected with no state change. -/
def PeerConn.setRemoteDesc (pc : PeerConn) (sd : SessionDesc) :
    Except TransportError PeerConn :=
  match sd.sdpType, pc.signaling with
  | .offer, .stable => .ok { pc with remoteDesc := some sd, signaling := .haveRemoteOffer }
  | .offer, .haveRemoteOffer => .ok { pc with remoteDesc := some sd }
  | .answer, .haveLocalOffer => .ok { pc with remoteDesc := some sd, signaling := .stable }
  | _, _ => .error .invalidSignalingState

/-- pion `pc.CreateOffer`: produces an offer; its SDP body is irrelevant to
the negotiation state machine. -/
def PeerConn.createOffer (_pc : PeerConn) (_opts : Option OfferOptions) : SessionDesc :=
  { sdpType := .offer, iceCredential := "" }

/-- pion `pc.SetLocalDescription` of an offer (the only description this
code sets locally): accepted in stable or have-local-offer, and starts ICE
candidate gathering. -/
def PeerConn.setLocalDesc (pc : PeerConn) (sd : SessionDesc) :
    Except TransportError PeerConn :=
  match sd.sdpType, pc.signaling with
  | .offer, .stable =>
    .ok { pc with localDesc := some sd, signaling := .haveLocalOffer, gathering := true }
  | .offer, .haveLocalOffer =>
    .ok { pc with localDesc := some sd, gathering := true }
  | _, _ => .error .invalidSignalingState

/-- pion `pc.AddICECandidate`: fails without a remote description. -/
def PeerConn.addCandidate (pc : PeerConn) (c : String) :
    Except TransportError PeerConn :=
  match pc.remoteDesc with
  | Option.none => .error .noRemoteDescription
  | some _ => .ok { pc with appliedCandidates := pc.appliedCandidates ++ [c] }

/-- transport.go lines 47-53: negotiationStateNone / negotiationStateClient
(waiting for the client's answer) / negotiationRetry. -/
inductive NegotiationState
  | negotiationStateNone
  | negotiationStateClient
  | negotiationRetry
deriving DecidableEq, Repr

structure Transport where
  pc : PeerConn
  onOfferSet : Bool  -- whether an onOffer callback has been registered
  pendingCandidates : List String
  negotiationPending : List String
  restartAfterGathering : Bool
  restartAtNextOffer : Bool
  negotiationState : NegotiationState
  negotiateCounter : Nat
  signalStateCheckTimer : Option Nat  -- armed failure timer and the epoch it guards
  currentOfferIceCredential : String
  pendingRestartIceOffer : Option SessionDesc
  previousAnswer : Option SessionDesc
  preferTCP : Bool
deriving DecidableEq, Repr

/-- The callback invocations an operation performs. -/
inductive Emit
  | newOffer (sd : SessionDesc)       -- `go t.onOffer(offer)` with a freshly created offer (line 596)
  | recoveryOffer (sd : SessionDesc)  -- `go t.onOffer(*offer)` re-emitting the local description (line 518)
deriving DecidableEq, Repr

structure OpResult where
  t : Transport
  emits : List Emit
  err : Option TransportError
deriving DecidableEq, Repr

/-- `NewPCTransport` followed by `createPeerConnection`: fresh peer
connection, empty queues, state `negotiationStateNone`, counter 0. -/
def initTransport (onOfferSet : Bool) : Transport :=
  { pc := { closed := false, gathering := false, signaling := .stable,
            localDesc := Option.none, remoteDesc := Option.none,
            appliedCandidates := [] },
    onOfferSet := onOfferSet,
    pendingCandidates := [], negotiationPending := [],
    restartAfterGathering := false, restartAtNextOffer := false,
    negotiationState := .negotiationStateNone, negotiateCounter := 0,
    signalStateCheckTimer := Option.none,
    currentOfferIceCredential := "", pendingRestartIceOffer := Option.none,
    previousAnswer := Option.none, preferTCP := false }

/-- Go's `ensureICERestart` (lines 541-547): force the ICERestart option. -/
def ensureICERestart (_opts : Option OfferOptions) : Option OfferOptions :=
  some { iceRestart := true }

/-- Line 494 of `createAndSendOffer`:
`iceRestart := (options != nil && options.ICERestart) || t.restartAtNextOffer`. -/
def iceRestartRequested (opts : Option OfferOptions) (t : Transport) : Bool :=
  (match opts with | some o => o.iceRestart | Option.none => false) || t.restartAtNextOffer

/-- The tail of `createAndSendOffer` (lines 549-597): the one-shot
previous-answer and restart-at-next-offer flags force ICE restart and are
cleared (clearing an already-clear flag is the identity, so both are
cleared unconditionally here); create the offer, filter its candidates
(which does not change any negotiation field), set it locally; on success
move to `negotiationStateClient`, clear `restartAfterGathering`, reset the
pending-negotiation set, bump the epoch and re-arm the failure timer for
it, then emit the offer. -/
def offerTail (opts : Option OfferOptions) (t : Transport) : OpResult :=
  let opts1 := if t.previousAnswer.isSome then ensureICERestart opts else opts
  let opts2 := if t.restartAtNextOffer then ensureICERestart opts1 else opts1
  let t1 : Transport := { t with previousAnswer := Option.none, restartAtNextOffer := false }
  let offer := t1.pc.createOffer opts2
  match t1.pc.setLocalDesc offer with
  | .error e => { t := t1, emits := [], err := some e }
  | .ok pc =>
    let t2 : Transport :=
      { t1 with pc := pc,
                negotiationState := .negotiationStateClient,
                restartAfterGathering := false,
                negotiationPending := [],
                negotiateCounter := t1.negotiateCounter + 1 }
    { t := { t2 with signalStateCheckTimer := some t2.negotiateCounter },
      emits := [Emit.newOffer offer], err := Option.none }

/-- `createAndSendOffer` (transport.go lines 486-598). -/
def createAndSendOffer (opts : Option OfferOptions) (t : Transport) : OpResult :=
  if t.onOfferSet = false then ⟨t, [], Option.none⟩
  else if t.pc.closed = true then ⟨t, [], Option.none⟩
  else
    let iceRestart := iceRestartRequested opts t
    if iceRestart = true ∧ t.pc.gathering = true then
      ⟨{ t with restartAfterGathering := true }, [], Option.none⟩
    else if iceRestart = true ∧ t.negotiationState ≠ .negotiationStateNone then
      match t.pc.remoteDesc with
      | Option.none =>
        match t.pc.localDesc with
        | Option.none => ⟨t, [], some .iceRestartWithoutLocalSDP⟩
        | some offer =>
          ⟨{ t with negotiationState := .negotiationRetry, restartAtNextOffer := true },
            [Emit.recoveryOffer offer], Option.none⟩
      | some currentSD =>
        match t.pc.setRemoteDesc currentSD with
        | .error e => ⟨t, [], some e⟩
        | .ok pc => offerTail opts { t with pc := pc }
    else
      if t.negotiationState = .negotiationStateClient then
        ⟨{ t with negotiationState := .negotiationRetry }, [], Option.none⟩
      else if t.negotiationState = .negotiationRetry then
        ⟨t, [], Option.none⟩
      else offerTail opts t

/-- The candidate drain loop of `SetRemoteDescription` (lines 395-400):
apply each queued candidate in order; on a failure stop there (candidates
already applied stay applied, the queue is not cleared by the caller). -/
def drainCandidates : PeerConn → List String → PeerConn × Option TransportError
  | pc, [] => (pc, Option.none)
  | pc, c :: rest =>
    match pc.addCandidate c with
    | .error e => (pc, some e)
    | .ok pc2 => drainCandidates pc2 rest

/-- `SetRemoteDescription` (transport.go lines 353-417).  For an offer,
`isRemoteOfferRestartICE` yields its credential and whether a stored
credential exists and differs; a restart offer arriving while gathering is
deferred into `pendingRestartIceOffer`.  Otherwise the description is
applied; on success the credential is updated when empty or on restart, the
negotiation state is reset (cancelling the failure timer), queued candidates
are drained, and if the previous state was `negotiationRetry` and an answer
was just applied, a follow-up offer is created at once (its error is only
logged). -/
def setRemoteDescription (sd : SessionDesc) (t : Transport) : OpResult :=
  let iceCredential := if sd.sdpType = .offer then sd.iceCredential else ""
  let offerRestartICE := sd.sdpType = .offer
    ∧ t.currentOfferIceCredential ≠ ""
    ∧ t.currentOfferIceCredential ≠ sd.iceCredential
  if offerRestartICE ∧ t.pc.gathering = true then
    ⟨{ t with pendingRestartIceOffer := some sd }, [], Option.none⟩
  else
    match t.pc.setRemoteDesc sd with
    | .error e => ⟨t, [], some e⟩
    | .ok pc =>
      let t1 : Transport := { t with pc := pc }
      let t2 := if t1.currentOfferIceCredential = "" ∨ offerRestartICE
        then { t1 with currentOfferIceCredential := iceCredential } else t1
      let lastState := t2.negotiationState
      let t3 : Transport := { t2 with negotiationState := .negotiationStateNone,
                                      signalStateCheckTimer := Option.none }
      match drainCandidates t3.pc t3.pendingCandidates with
      | (pc2, some e) => ⟨{ t3 with pc := pc2 }, [], some e⟩
      | (pc2, Option.none) =>
        let t4 : Transport := { t3 with pc := pc2, pendingCandidates := [] }
        if lastState = .negotiationRetry ∧ sd.sdpType = .answer then
          let r := createAndSendOffer Option.none t4
          ⟨r.t, r.emits, Option.none⟩
        else ⟨t4, [], Option.none⟩

/-- `AddICECandidate` (transport.go lines 316-327): queue while no remote
description exists, otherwise apply directly. -/
def addICECandidate (c : String) (t : Transport) : Transport × Option TransportError :=
  match t.pc.remoteDesc with
  | Option.none => ({ t with pendingCandidates := t.pendingCandidates ++ [c] }, Option.none)
  | some _ =>
    match t.pc.addCandidate c with
    | .error e => (t, some e)
    | .ok pc => ({ t with pc := pc }, Option.none)

/-- `Negotiate` (transport.go lines 456-471): both the forced path and the
debounced path run `CreateAndSendOffer(nil)`; the debouncer only coalesces
calls in time, so an executed call is modelled here and a coalesced-away
call is a no-op. -/
def negotiate (_force : Bool) (t : Transport) : OpResult :=
  createAndSendOffer Option.none t

/-- The `OnICEGatheringStateChange` hook on reaching
`ICEGathererStateComplete` (transport.go lines 282-305): gathering is over;
a pending restart-after-gathering wins, else a deferred remote restart offer
is taken, cleared, and applied via `SetRemoteDescription`. -/
def onICEGatheringComplete (t0 : Transport) : OpResult :=
  let t : Transport := { t0 with pc := { t0.pc with gathering := false } }
  if t.restartAfterGathering = true then
    createAndSendOffer (some { iceRestart := true }) t
  else
    match t.pendingRestartIceOffer with
    | some offer =>
      setRemoteDescription offer { t with pendingRestartIceOffer := Option.none }
    | Option.none => ⟨t, [], Option.none⟩

/-- The failure-timer callback armed for epoch `negotiateVersion`
(transport.go lines 585-594): it invokes `onNegotiationFailed` (when
registered) exactly when the observed epoch still equals the armed one and
the state is still not `negotiationStateNone`. -/
def signalStateCheckFire (negotiateVersion : Nat) (t : Transport) : Bool :=
  let failed := !(t.negotiationState = .negotiationStateNone : Bool)
  (t.negotiateCounter = negotiateVersion : Bool) && failed

/-! ### Traces of Negotiate / SetRemoteDescription calls (for C1) -/

inductive NegEvent
  | negotiate (force : Bool)
  | remoteDescription (sd : SessionDesc)
deriving DecidableEq, Repr

def negStep (t : Transport) : NegEvent → OpResult
  | .negotiate f => negotiate f t
  | .remoteDescription sd => setRemoteDescription sd t

/-- Number of freshly created local offers among the emissions (the
recovery re-emission of an existing local description is the same
outstanding offer sent again, not a second one). -/
def newOfferCount (ems : List Emit) : Nat :=
  (ems.filter (fun e => match e with | .newOffer _ => true | _ => false)).length

/-- Whether this step applied an answer (the outstanding local offer's
answer): an answer description that the peer connection accepted. -/
def answerApplied (t : Transport) (ev : NegEvent) : Bool :=
  match ev with
  | .negotiate _ => false
  | .remoteDescription sd =>
    (sd.sdpType = .answer : Bool) && ((negStep t ev).err = Option.none : Bool)

/-- Outstanding locally-initiated offers after one step: applying the
answer settles the outstanding offer; any offer newly produced in the same
step (the queued-retry follow-up) is then outstanding. -/
def outstandingStep (o : Nat) (t : Transport) (ev : NegEvent) : Nat :=
  (if answerApplied t ev then 0 else o) + newOfferCount (negStep t ev).emits

def runOutstanding : Nat × Transport → List NegEvent → Nat × Transport
  | p, [] => p
  | (o, t), ev :: evs => runOutstanding (outstandingStep o t ev, (negStep t ev).t) evs

/-! ## Invariants used by the theorems -/

/-- Neither quality map stores an OFF entry. -/
def NoOffMaps (d : DynacastQuality) : Prop :=
  (∀ e ∈ d.maxSubscriberQuality, e.2 ≠ VideoQuality.off)
  ∧ (∀ e ∈ d.maxSubscriberNodeQuality, e.2 ≠ VideoQuality.off)

/-- The invariant tying the outstanding-offer count to the negotiation
state over `Negotiate` / `SetRemoteDescription` traces: the one-shot
restart flags stay clear, the transport is the offerer exactly when the
peer connection holds an unanswered local offer, and the outstanding count
is 1 exactly in that situation. -/
def NegInv (o : Nat) (t : Transport) : Prop :=
  t.restartAtNextOffer = false
  ∧ t.previousAnswer = Option.none
  ∧ (t.negotiationState = NegotiationState.negotiationStateNone
      ↔ t.pc.signaling ≠ SignalingState.haveLocalOffer)
  ∧ o = (if t.negotiationState = NegotiationState.negotiationStateNone then 0 else 1)

/-! # Theorems -/

/-! ## C9: extractFingerprint -/

/-- C9 (counterexample): on an SDP whose single fingerprint attribute is
`"sha-256 AB:CD"` (hash algorithm `sha-256`, digest `AB:CD`), the code
returns the pair `("AB:CD", "sha-256")` — digest first — while the spec's
`(algorithm, hash)` order would be `("sha-256", "AB:CD")`; the two pairs
differ, so `extractFingerprint` does not return `(algorithm, hash)`. -/
theorem extractFingerprint_pair_order_counterexample :
    extractFingerprint
        { attributes := [{ key := "fingerprint", value := "sha-256 AB:CD" }],
          mediaDescriptions := [] }
      = .ok ("AB:CD", "sha-256")
    ∧ specExtractFingerprint
        { attributes := [{ key := "fingerprint", value := "sha-256 AB:CD" }],
          mediaDescriptions := [] }
      = .ok ("sha-256", "AB:CD")
    ∧ (("AB:CD", "sha-256") : String × String) ≠ ("sha-256", "AB:CD") := by
  refine ⟨rfl, rfl, by decide⟩

/-- C9 (amended): `extractFingerprint` returns the pair `(hash, algorithm)`
— the digest first, then the hash-algorithm token — of the single
consistent fingerprint attribute collected from the session level and every
media level; it fails with `noFingerprint` exactly when no fingerprint
attribute is present at any level, with `conflictingFingerprints` exactly
when two collected values differ, and with `invalidFingerprint` exactly
when the consistent value is not exactly two space-separated tokens. -/
theorem extractFingerprint_characterization (desc : SdpSession) :
    (extractFingerprint desc = .error .noFingerprint ↔ collectFingerprints desc = [])
    ∧ (∀ hsh alg, extractFingerprint desc = .ok (hsh, alg) ↔
        (collectFingerprints desc ≠ []
          ∧ (∀ g ∈ collectFingerprints desc, g = (collectFingerprints desc).headD "")
          ∧ splitSpaces ((collectFingerprints desc).headD "") = [alg, hsh]))
    ∧ (extractFingerprint desc = .error .conflictingFingerprints ↔
        ∃ g1 ∈ collectFingerprints desc, ∃ g2 ∈ collectFingerprints desc, g1 ≠ g2)
    ∧ (extractFingerprint desc = .error .invalidFingerprint ↔
        (collectFingerprints desc ≠ []
          ∧ (∀ g ∈ collectFingerprints desc, g = (collectFingerprints desc).headD "")
          ∧ (splitSpaces ((collectFingerprints desc).headD "")).length ≠ 2)) := by
  rcases hc : collectFingerprints desc with _ | ⟨f0, rest⟩
  · simp [extractFingerprint, hc]
  · simp only [List.headD_cons]
    by_cases hall : ∀ g ∈ f0 :: rest, g = f0
    · have hallb : (f0 :: rest).all (fun m => m = f0) = true := by
        simp only [List.all_eq_true, decide_eq_true_eq]
        exact hall
      have hnr : ¬∃ g1 ∈ f0 :: rest, ∃ g2 ∈ f0 :: rest, g1 ≠ g2 := by
        rintro ⟨g1, h1, g2, h2, hne⟩
        exact hne ((hall g1 h1).trans (hall g2 h2).symm)
      have hE : extractFingerprint desc =
          (match splitSpaces f0 with
           | [a, b] => Except.ok (b, a)
           | _ => Except.error FingerprintError.invalidFingerprint) := by
        unfold extractFingerprint
        rw [hc]
        simp [hallb]
      rcases hsp : splitSpaces f0 with _ | ⟨a, _ | ⟨b, _ | ⟨x, xs⟩⟩⟩
      · replace hE : extractFingerprint desc = .error .invalidFingerprint := by
          rw [hE, hsp]
        refine ⟨by simp [hE], fun hsh alg => ?_, ?_, ?_⟩
        · rw [hE]
          constructor
          · intro h
            exact absurd h (by simp)
          · rintro ⟨-, -, hsp2⟩
            exact absurd hsp2 (by simp)
        · rw [hE]
          constructor
          · intro h
            exact absurd h (by simp)
          · intro hr
            exact absurd hr hnr
        · rw [hE]
          constructor
          · intro _
            exact ⟨by simp, hall, by simp⟩
          · intro _
            rfl
      · replace hE : extractFingerprint desc = .error .invalidFingerprint := by
          rw [hE, hsp]
        refine ⟨by simp [hE], fun hsh alg => ?_, ?_, ?_⟩
        · rw [hE]
          constructor
          · intro h
            exact absurd h (by simp)
          · rintro ⟨-, -, hsp2⟩
            exact absurd hsp2 (by simp)
        · rw [hE]
          constructor
          · intro h
            exact absurd h (by simp)
          · intro hr
            exact absurd hr hnr
        · rw [hE]
          constructor
          · intro _
            exact ⟨by simp, hall, by simp⟩
          · intro _
            rfl
      · replace hE : extractFingerprint desc = .ok (b, a) := by
          rw [hE, hsp]
        refine ⟨by simp [hE], fun hsh alg => ?_, ?_, ?_⟩
        · rw [hE]
          constructor
          · intro h
            have hba : b = hsh ∧ a = alg := by
              simpa using h
            obtain ⟨h1, h2⟩ := hba
            subst h1
            subst h2
            exact ⟨by simp, hall, rfl⟩
          · rintro ⟨-, -, hsp2⟩
            have hba : a = alg ∧ b = hsh := by
              simpa using hsp2
            obtain ⟨h1, h2⟩ := hba
            subst h1
            subst h2
            rfl
        · rw [hE]
          constructor
          · intro h
            exact absurd h (by simp)
          · intro hr
            exact absurd hr hnr
        · rw [hE]
          constructor
          · intro h
            exact absurd h (by simp)
          · rintro ⟨-, -, hlen⟩
            exact absurd rfl hlen
      · replace hE : extractFingerprint desc = .error .invalidFingerprint := by
          rw [hE, hsp]
        refine ⟨by simp [hE], fun hsh alg => ?_, ?_, ?_⟩
        · rw [hE]
          constructor
          · intro h
            exact absurd h (by simp)
          · rintro ⟨-, -, hsp2⟩
            exact absurd hsp2 (by simp)
        · rw [hE]
          constructor
          · intro h
            exact absurd h (by simp)
          · intro hr
            exact absurd hr hnr
        · rw [hE]
          constructor
          · intro _
            refine ⟨by simp, hall, ?_⟩
            intro h2
            simp only [List.length_cons] at h2
            omega
          · intro _
            rfl
    · have hallb : (f0 :: rest).all (fun m => m = f0) = false := by
        apply List.all_eq_false.mpr
        push_neg at hall
        obtain ⟨g, hg, hgne⟩ := hall
        refine ⟨g, hg, ?_⟩
        simpa using hgne
      push_neg at hall
      obtain ⟨g, hg, hgne⟩ := hall
      have hE : extractFingerprint desc = .error .conflictingFingerprints := by
        unfold extractFingerprint
        rw [hc]
        simp [hallb]
      refine ⟨by simp [hE], fun hsh alg => ?_, ?_, ?_⟩
      · rw [hE]
        constructor
        · intro h
          exact absurd h (by simp)
        · rintro ⟨-, hmem, -⟩
          exact absurd (hmem g hg) hgne
      · rw [hE]
        constructor
        · intro _
          exact ⟨g, hg, f0, List.mem_cons_self f0 rest, hgne⟩
        · intro _
          rfl
      · rw [hE]
        constructor
        · intro h
          exact absurd h (by simp)
        · rintro ⟨-, hmem, -⟩
          exact absurd (hmem g hg) hgne

/-! ## C10: filterCandidates -/

/-- C10 (counterexample): a candidate attribute with transport `udp` whose
foundation token happens to contain `"tcp"`
(`"tcpabc 1 udp 2130706431 192.168.0.1 40000 typ host"`) is KEPT by
`filterCandidates` with `preferTCP = true` (the code only checks for the
substring `"tcp"` anywhere in the value), although its transport is not
TCP, so the spec-worded filter (drop candidates whose transport is not TCP)
would drop it. -/
theorem filterCandidates_substring_counterexample :
    filterCandidates true
        { attributes := [{ key := "candidate",
                           value := "tcpabc 1 udp 2130706431 192.168.0.1 40000 typ host" }],
          mediaDescriptions := [] }
      = { attributes := [{ key := "candidate",
                           value := "tcpabc 1 udp 2130706431 192.168.0.1 40000 typ host" }],
          mediaDescriptions := [] }
    ∧ specCandidateTransport "tcpabc 1 udp 2130706431 192.168.0.1 40000 typ host" = "udp"
    ∧ specFilterCandidates true
        { attributes := [{ key := "candidate",
                           value := "tcpabc 1 udp 2130706431 192.168.0.1 40000 typ host" }],
          mediaDescriptions := [] }
      = { attributes := [], mediaDescriptions := [] }
    ∧ filterCandidates true
        { attributes := [{ key := "candidate",
                           value := "tcpabc 1 udp 2130706431 192.168.0.1 40000 typ host" }],
          mediaDescriptions := [] }
      ≠ specFilterCandidates true
        { attributes := [{ key := "candidate",
                           value := "tcpabc 1 udp 2130706431 192.168.0.1 40000 typ host" }],
          mediaDescriptions := [] } := by
  refine ⟨by decide, by decide, by decide, by decide⟩

theorem keepAttribute_false_eq_true (a : Attr) : keepAttribute false a = true := by
  unfold keepAttribute
  split <;> rfl

theorem filterAttributes_false_eq_self (attrs : List Attr) :
    filterAttributes false attrs = attrs :=
  List.filter_eq_self.mpr (fun a _ => keepAttribute_false_eq_true a)

theorem mediaFilter_false_eq_self : ∀ ms : List MediaDesc,
    ms.map (fun m => { m with attributes := filterAttributes false m.attributes }) = ms
  | [] => rfl
  | m :: ms => by
    cases m
    simp [filterAttributes_false_eq_self, mediaFilter_false_eq_self ms]

/-- C10 (amended): `filter_candidates` with `prefer_tcp = false` is the
identity, and with `prefer_tcp = true` it drops exactly those candidate
attributes whose value does not contain the substring `"tcp"` (a substring
heuristic, not a check of the transport field): the result is a sublist of
the input, every non-candidate attribute is preserved verbatim, and a kept
attribute is exactly an input attribute that is either not a candidate or
has `"tcp"` somewhere in its value. -/
theorem filterCandidates_amended (s : SdpSession) (attrs : List Attr) :
    filterCandidates false s = s
    ∧ filterAttributes true attrs
        = attrs.filter (fun a => !(a.key = attrKeyCandidate : Bool) || containsTcp a.value)
    ∧ List.Sublist (filterAttributes true attrs) attrs
    ∧ (filterAttributes true attrs).filter (fun a => !(a.key = attrKeyCandidate : Bool))
        = attrs.filter (fun a => !(a.key = attrKeyCandidate : Bool)) := by
  refine ⟨?_, ?_, ?_, ?_⟩
  · cases s
    simp [filterCandidates, filterAttributes_false_eq_self, mediaFilter_false_eq_self]
  · refine List.filter_congr ?_
    intro a _
    unfold keepAttribute
    by_cases h : a.key = attrKeyCandidate <;> simp [h]
  · exact List.filter_sublist attrs
  · rw [filterAttributes, List.filter_filter]
    refine List.filter_congr ?_
    intro a _
    unfold keepAttribute
    by_cases h : a.key = attrKeyCandidate <;> simp [h]

/-! ## C7 and C8: the quality aggregator -/

theorem qualAcc_eq_specMaxQual (acc q : VideoQuality) (hq : q ≠ VideoQuality.off) :
    qualAcc acc q = specMaxQual acc q := by
  cases q
  case off => exact absurd rfl hq
  all_goals cases acc <;> decide

theorem foldl_qualAcc_eq_specMaxQual (l : List (String × VideoQuality))
    (h : ∀ e ∈ l, e.2 ≠ VideoQuality.off) :
    ∀ acc, l.foldl (fun acc e => qualAcc acc e.2) acc
      = l.foldl (fun acc e => specMaxQual acc e.2) acc := by
  induction l with
  | nil => intro acc; rfl
  | cons hd tl ih =>
    intro acc
    have hhd : hd.2 ≠ VideoQuality.off := h hd (List.mem_cons_self hd tl)
    have htl : ∀ e ∈ tl, e.2 ≠ VideoQuality.off := fun e he => h e (List.mem_cons_of_mem hd he)
    simp only [List.foldl_cons, qualAcc_eq_specMaxQual acc hd.2 hhd, ih htl]

theorem computeMaxQuality_eq_specAggregate (d : DynacastQuality) (h : NoOffMaps d) :
    computeMaxQuality d = specAggregate d := by
  obtain ⟨h1, h2⟩ := h
  have key : computeMaxQuality d
      = ((d.maxSubscriberQuality.map Prod.snd) ++
         (d.maxSubscriberNodeQuality.map Prod.snd)).foldl specMaxQual VideoQuality.off := by
    unfold computeMaxQuality
    rw [List.foldl_append, List.foldl_map, List.foldl_map,
        foldl_qualAcc_eq_specMaxQual _ h1, foldl_qualAcc_eq_specMaxQual _ h2]
  unfold specAggregate
  by_cases hemp : d.maxSubscriberQuality = [] ∧ d.maxSubscriberNodeQuality = []
  · rw [if_pos hemp, key, hemp.1, hemp.2]
    rfl
  · rw [if_neg hemp, key]

theorem updateQualityChange_maps_fixed (d : DynacastQuality) :
    (updateQualityChange d).1.maxSubscriberQuality = d.maxSubscriberQuality
    ∧ (updateQualityChange d).1.maxSubscriberNodeQuality = d.maxSubscriberNodeQuality := by
  simp only [updateQualityChange]
  split <;> exact ⟨rfl, rfl⟩

theorem mapSet_no_off (m : List (String × VideoQuality)) (k : String) (q : VideoQuality)
    (hm : ∀ e ∈ m, e.2 ≠ VideoQuality.off) (hq : q ≠ VideoQuality.off) :
    ∀ e ∈ mapSet m k q, e.2 ≠ VideoQuality.off := by
  induction m with
  | nil =>
    intro e he
    simp only [mapSet, List.mem_singleton] at he
    subst he
    exact hq
  | cons hd tl ih =>
    intro e he
    have hhd : hd.2 ≠ VideoQuality.off := hm hd (List.mem_cons_self hd tl)
    have htl : ∀ e ∈ tl, e.2 ≠ VideoQuality.off := fun e he2 => hm e (List.mem_cons_of_mem hd he2)
    rw [mapSet] at he
    by_cases hk : hd.1 = k
    · rw [if_pos hk] at he
      rcases List.mem_cons.mp he with h | h
      · subst h; exact hq
      · exact htl e h
    · rw [if_neg hk] at he
      rcases List.mem_cons.mp he with h | h
      · subst h; exact hhd
      · exact ih htl e h

theorem mapDel_no_off (m : List (String × VideoQuality)) (k : String)
    (hm : ∀ e ∈ m, e.2 ≠ VideoQuality.off) :
    ∀ e ∈ mapDel m k, e.2 ≠ VideoQuality.off := by
  intro e he
  exact hm e (List.mem_of_mem_filter he)

theorem qualityStep_no_off (d : DynacastQuality) (ev : QualityEvent) (h : NoOffMaps d) :
    NoOffMaps (qualityStep d ev) := by
  obtain ⟨h1, h2⟩ := h
  cases ev with
  | sub id q =>
    unfold qualityStep notifySubscriberMaxQuality
    rcases (updateQualityChange_maps_fixed
      (if q = VideoQuality.off then
        { d with maxSubscriberQuality := mapDel d.maxSubscriberQuality id }
       else
        { d with maxSubscriberQuality := mapSet d.maxSubscriberQuality id q })) with ⟨e1, e2⟩
    constructor
    · rw [e1]
      by_cases hq : q = VideoQuality.off
      · rw [if_pos hq]
        exact mapDel_no_off _ _ h1
      · rw [if_neg hq]
        exact mapSet_no_off _ _ _ h1 hq
    · rw [e2]
      split <;> exact h2
  | node id q =>
    unfold qualityStep notifySubscriberNodeMaxQuality
    rcases (updateQualityChange_maps_fixed
      (if q = VideoQuality.off then
        { d with maxSubscriberNodeQuality := mapDel d.maxSubscriberNodeQuality id }
       else
        { d with maxSubscriberNodeQuality := mapSet d.maxSubscriberNodeQuality id q })) with ⟨e1, e2⟩
    constructor
    · rw [e1]
      split <;> exact h1
    · rw [e2]
      by_cases hq : q = VideoQuality.off
      · rw [if_pos hq]
        exact mapDel_no_off _ _ h2
      · rw [if_neg hq]
        exact mapSet_no_off _ _ _ h2 hq

theorem runQuality_no_off (evs : List QualityEvent) :
    ∀ d : DynacastQuality, NoOffMaps d → NoOffMaps (runQuality d evs) := by
  induction evs with
  | nil => intro d h; exact h
  | cons ev evs ih =>
    intro d h
    exact ih (qualityStep d ev) (qualityStep_no_off d ev h)

/-- C7: over every sequence of `NotifySubscriberMaxQuality` and
`NotifySubscriberNodeMaxQuality` calls from a started aggregator, neither
map ever stores OFF (an OFF report removes the entry), and the recomputed
aggregate equals the maximum quality (in the order OFF < LOW < MEDIUM <
HIGH) over the union of both maps, or OFF when both maps are empty. -/
theorem dynacast_no_off_and_aggregate (evs : List QualityEvent) :
    (∀ e ∈ (runQuality (resetDynacast newDynacastQuality) evs).maxSubscriberQuality,
        e.2 ≠ VideoQuality.off)
    ∧ (∀ e ∈ (runQuality (resetDynacast newDynacastQuality) evs).maxSubscriberNodeQuality,
        e.2 ≠ VideoQuality.off)
    ∧ computeMaxQuality (runQuality (resetDynacast newDynacastQuality) evs)
        = specAggregate (runQuality (resetDynacast newDynacastQuality) evs) := by
  have h0 : NoOffMaps (resetDynacast newDynacastQuality) := by
    constructor
    · intro e he
      simp [resetDynacast, newDynacastQuality] at he
    · intro e he
      simp [resetDynacast, newDynacastQuality] at he
  have h := runQuality_no_off evs (resetDynacast newDynacastQuality) h0
  exact ⟨h.1, h.2, computeMaxQuality_eq_specAggregate _ h⟩

/-- C8: a recompute invokes `onSubscribedMaxQualityChange` with the new
aggregate if and only if the recomputed aggregate differs from the stored
aggregate or the initialized flag is false; otherwise it returns silently
leaving the state untouched; whenever the callback fires, the flag becomes
true and the aggregate is stored (the maps are untouched either way). -/
theorem updateQualityChange_fires_iff (d : DynacastQuality) :
    ((updateQualityChange d).2 = Option.none ↔
      (computeMaxQuality d = d.maxSubscribedQuality ∧ d.inited = true))
    ∧ ((updateQualityChange d).2 = some (computeMaxQuality d) ↔
      (computeMaxQuality d ≠ d.maxSubscribedQuality ∨ d.inited = false))
    ∧ ((updateQualityChange d).2 = Option.none → (updateQualityChange d).1 = d)
    ∧ (∀ q, (updateQualityChange d).2 = some q →
        q = computeMaxQuality d
        ∧ (updateQualityChange d).1.inited = true
        ∧ (updateQualityChange d).1.maxSubscribedQuality = q
        ∧ (updateQualityChange d).1.maxSubscriberQuality = d.maxSubscriberQuality
        ∧ (updateQualityChange d).1.maxSubscriberNodeQuality = d.maxSubscriberNodeQuality) := by
  unfold updateQualityChange
  by_cases h : computeMaxQuality d = d.maxSubscribedQuality ∧ d.inited = true
  · rw [if_pos h]
    refine ⟨by simp [h], ?_, fun _ => rfl, ?_⟩
    · simp only []
      constructor
      · intro hx
        exact absurd hx (by simp)
      · intro hx
        rcases hx with hx | hx
        · exact absurd h.1 hx
        · rw [h.2] at hx
          exact absurd hx (by simp)
    · intro q hq
      exact absurd hq (by simp)
  · rw [if_neg h]
    refine ⟨⟨fun hx => absurd hx (by simp), fun hx => absurd hx h⟩, ?_,
      fun hx => absurd hx (by simp), ?_⟩
    · constructor
      · intro _
        by_cases hc : computeMaxQuality d = d.maxSubscribedQuality
        · cases hi : d.inited
          · exact Or.inr rfl
          · exact absurd ⟨hc, hi⟩ h
        · exact Or.inl hc
      · intro _
        rfl
    intro q hq
    have hq2 : computeMaxQuality d = q := by simpa using hq
    subst hq2
    exact ⟨rfl, rfl, rfl, rfl, rfl⟩

/-! ## Helper lemmas on the peer-connection model -/

theorem setRemoteDesc_ok_fields (pc : PeerConn) (sd : SessionDesc) (pc2 : PeerConn)
    (h : pc.setRemoteDesc sd = .ok pc2) :
    pc2.appliedCandidates = pc.appliedCandidates
    ∧ pc2.closed = pc.closed
    ∧ pc2.gathering = pc.gathering
    ∧ pc2.localDesc = pc.localDesc
    ∧ pc2.remoteDesc = some sd := by
  unfold PeerConn.setRemoteDesc at h
  rcases hty : sd.sdpType <;> rcases hsig : pc.signaling <;>
    rw [hty, hsig] at h <;>
    first
      | (injection h with h; subst h; exact ⟨rfl, rfl, rfl, rfl, rfl⟩)
      | exact Except.noConfusion h

theorem setRemoteDesc_err_shape (pc : PeerConn) (sd : SessionDesc) (e : TransportError)
    (h : pc.setRemoteDesc sd = .error e) : e = TransportError.invalidSignalingState := by
  unfold PeerConn.setRemoteDesc at h
  rcases hty : sd.sdpType <;> rcases hsig : pc.signaling <;>
    rw [hty, hsig] at h <;>
    first
      | (injection h with h; exact h.symm)
      | exact Except.noConfusion h

theorem setLocalDesc_ok_fields (pc : PeerConn) (sd : SessionDesc) (pc2 : PeerConn)
    (h : pc.setLocalDesc sd = .ok pc2) :
    pc2.appliedCandidates = pc.appliedCandidates
    ∧ pc2.closed = pc.closed
    ∧ pc2.remoteDesc = pc.remoteDesc
    ∧ pc2.localDesc = some sd
    ∧ pc2.signaling = SignalingState.haveLocalOffer := by
  unfold PeerConn.setLocalDesc at h
  rcases hty : sd.sdpType <;> rcases hsig : pc.signaling <;>
    rw [hty, hsig] at h <;>
    first
      | (injection h with h; subst h; exact ⟨rfl, rfl, rfl, rfl, hsig⟩)
      | (injection h with h; subst h; exact ⟨rfl, rfl, rfl, rfl, rfl⟩)
      | exact Except.noConfusion h

theorem setLocalDesc_err_shape (pc : PeerConn) (sd : SessionDesc) (e : TransportError)
    (h : pc.setLocalDesc sd = .error e) : e = TransportError.invalidSignalingState := by
  unfold PeerConn.setLocalDesc at h
  rcases hty : sd.sdpType <;> rcases hsig : pc.signaling <;>
    rw [hty, hsig] at h <;>
    first
      | (injection h with h; exact h.symm)
      | exact Except.noConfusion h

theorem drainCandidates_ok (l : List String) :
    ∀ (pc : PeerConn) (x : SessionDesc), pc.remoteDesc = some x →
    drainCandidates pc l
      = ({ pc with appliedCandidates := pc.appliedCandidates ++ l }, Option.none) := by
  induction l with
  | nil =>
    intro pc x h
    simp [drainCandidates]
  | cons c cs ih =>
    intro pc x h
    have h2 := ih { pc with appliedCandidates := pc.appliedCandidates ++ [c] } x h
    rw [h] at h2
    unfold drainCandidates PeerConn.addCandidate
    rw [h]
    simp only []
    rw [h2]
    simp

/-! ## Helper lemmas on the offer algorithm -/

theorem offerTail_fields (opts : Option OfferOptions) (t : Transport) :
    (offerTail opts t).t.negotiateCounter
      = t.negotiateCounter + newOfferCount (offerTail opts t).emits
    ∧ newOfferCount (offerTail opts t).emits ≤ 1
    ∧ (newOfferCount (offerTail opts t).emits = 1 →
        (offerTail opts t).t.signalStateCheckTimer
          = some (offerTail opts t).t.negotiateCounter)
    ∧ (offerTail opts t).t.pendingCandidates = t.pendingCandidates
    ∧ (offerTail opts t).t.pc.appliedCandidates = t.pc.appliedCandidates
    ∧ (offerTail opts t).t.pendingRestartIceOffer = t.pendingRestartIceOffer
    ∧ (offerTail opts t).t.pc.remoteDesc = t.pc.remoteDesc
    ∧ (offerTail opts t).err ≠ some TransportError.iceRestartWithoutLocalSDP := by
  unfold offerTail
  simp only []
  split
  · rename_i e heq
    have he := setLocalDesc_err_shape _ _ _ heq
    subst he
    simp [newOfferCount]
  · rename_i pc2 heq
    rcases setLocalDesc_ok_fields _ _ _ heq with ⟨f1, f2, f3, f4, -⟩
    simp [newOfferCount, f1, f3]

theorem createAndSendOffer_fields (opts : Option OfferOptions) (t : Transport) :
    (createAndSendOffer opts t).t.negotiateCounter
      = t.negotiateCounter + newOfferCount (createAndSendOffer opts t).emits
    ∧ newOfferCount (createAndSendOffer opts t).emits ≤ 1
    ∧ (newOfferCount (createAndSendOffer opts t).emits = 1 →
        (createAndSendOffer opts t).t.signalStateCheckTimer
          = some (createAndSendOffer opts t).t.negotiateCounter)
    ∧ (createAndSendOffer opts t).t.pendingCandidates = t.pendingCandidates
    ∧ (createAndSendOffer opts t).t.pc.appliedCandidates = t.pc.appliedCandidates
    ∧ (createAndSendOffer opts t).t.pendingRestartIceOffer = t.pendingRestartIceOffer
    ∧ (createAndSendOffer opts t).t.pc.remoteDesc = t.pc.remoteDesc := by
  unfold createAndSendOffer
  by_cases h1 : t.onOfferSet = false
  · rw [if_pos h1]
    simp [newOfferCount]
  · rw [if_neg h1]
    by_cases h2 : t.pc.closed = true
    · rw [if_pos h2]
      simp [newOfferCount]
    · rw [if_neg h2]
      simp only []
      by_cases h3 : iceRestartRequested opts t = true ∧ t.pc.gathering = true
      · rw [if_pos h3]
        simp [newOfferCount]
      · rw [if_neg h3]
        by_cases h4 : iceRestartRequested opts t = true
            ∧ t.negotiationState ≠ NegotiationState.negotiationStateNone
        · rw [if_pos h4]
          rcases hm : t.pc.remoteDesc with _ | currentSD
          · rcases hl : t.pc.localDesc with _ | ld
            · simp [newOfferCount, hm]
            · simp [newOfferCount, hm]
          · simp only []
            rcases hsr : t.pc.setRemoteDesc currentSD with e | pc2
            · simp [newOfferCount, hm]
            · simp only []
              rcases setRemoteDesc_ok_fields _ _ _ hsr with ⟨g1, g2, g3, g4, g5⟩
              rcases offerTail_fields opts { t with pc := pc2 } with ⟨f1, f2, f3, f4, f5, f6, f7, -⟩
              refine ⟨f1, f2, f3, f4, ?_, f6, ?_⟩
              · rw [f5]
                exact g1
              · rw [f7]
                simp only []
                rw [g5]
        · rw [if_neg h4]
          by_cases h5 : t.negotiationState = NegotiationState.negotiationStateClient
          · rw [if_pos h5]
            simp [newOfferCount]
          · rw [if_neg h5]
            by_cases h6 : t.negotiationState = NegotiationState.negotiationRetry
            · rw [if_pos h6]
              simp [newOfferCount]
            · rw [if_neg h6]
              rcases offerTail_fields opts t with ⟨f1, f2, f3, f4, f5, f6, f7, -⟩
              exact ⟨f1, f2, f3, f4, f5, f6, f7⟩

/-! ## C2: negotiation epoch and failure timer -/

/-- C2: each time `createAndSendOffer` successfully produces a (fresh)
local offer, the negotiation epoch `negotiateCounter` increases by exactly
one — and by zero otherwise (at most one offer is produced per call, and
the recovery re-emission of the existing local description is not a fresh
offer); when an offer is produced the failure timer is re-armed for the new
epoch; and the timer callback armed for epoch `n` reports failure (invoking
`onNegotiationFailed`) exactly when at firing time the current epoch still
equals `n` and the negotiation state is not `negotiationStateNone`. -/
theorem negotiation_epoch_and_failure_timer (opts : Option OfferOptions)
    (t u : Transport) (n : Nat) :
    ((createAndSendOffer opts t).t.negotiateCounter
       = t.negotiateCounter + newOfferCount (createAndSendOffer opts t).emits)
    ∧ newOfferCount (createAndSendOffer opts t).emits ≤ 1
    ∧ (newOfferCount (createAndSendOffer opts t).emits = 1 →
        (createAndSendOffer opts t).t.signalStateCheckTimer
          = some (createAndSendOffer opts t).t.negotiateCounter)
    ∧ (signalStateCheckFire n u = true
        ↔ (u.negotiateCounter = n
           ∧ u.negotiationState ≠ NegotiationState.negotiationStateNone)) := by
  rcases createAndSendOffer_fields opts t with ⟨f1, f2, f3, -⟩
  refine ⟨f1, f2, f3, ?_⟩
  unfold signalStateCheckFire
  simp

/-! ## C6: the IceRestartWithoutLocalSDP sentinel -/

/-- C6: with an `onOffer` callback registered, the peer connection open and
not in the middle of ICE gathering, the offer algorithm returns the
sentinel `iceRestartWithoutLocalSDP` exactly when an ICE restart is
requested while the negotiation state is not idle, there is no current
remote description, and no local description exists; and when a local
description does exist in that situation, it is re-emitted to the client as
a recovery offer, the state is set to `negotiationRetry`,
`restartAtNextOffer` is set, and success is returned. -/
theorem iceRestartWithoutLocalSDP_characterization (opts : Option OfferOptions)
    (t : Transport)
    (h1 : t.onOfferSet = true) (h2 : t.pc.closed = false) (h3 : t.pc.gathering = false) :
    ((createAndSendOffer opts t).err = some TransportError.iceRestartWithoutLocalSDP
      ↔ (iceRestartRequested opts t = true
         ∧ t.negotiationState ≠ NegotiationState.negotiationStateNone
         ∧ t.pc.remoteDesc = Option.none
         ∧ t.pc.localDesc = Option.none))
    ∧ (∀ ld : SessionDesc, iceRestartRequested opts t = true →
        t.negotiationState ≠ NegotiationState.negotiationStateNone →
        t.pc.remoteDesc = Option.none → t.pc.localDesc = some ld →
        createAndSendOffer opts t
          = { t := { t with negotiationState := NegotiationState.negotiationRetry,
                            restartAtNextOffer := true },
              emits := [Emit.recoveryOffer ld], err := Option.none }) := by
  unfold createAndSendOffer
  rw [if_neg (by simp [h1]), if_neg (by simp [h2])]
  simp only []
  rw [if_neg (by simp [h3])]
  by_cases h4 : iceRestartRequested opts t = true
      ∧ t.negotiationState ≠ NegotiationState.negotiationStateNone
  · rw [if_pos h4]
    rcases hm : t.pc.remoteDesc with _ | currentSD
    · rcases hl : t.pc.localDesc with _ | ld
      · refine ⟨⟨fun _ => ⟨h4.1, h4.2, rfl, rfl⟩, fun _ => rfl⟩, ?_⟩
        intro ld _ _ _ hld
        exact absurd hld (by simp)
      · refine ⟨⟨fun hx => absurd hx (by simp), ?_⟩, ?_⟩
        · rintro ⟨-, -, -, hld⟩
          exact absurd hld (by simp)
        · intro ld2 _ _ _ hld2
          have : ld = ld2 := by simpa using hld2
          subst this
          rfl
    · simp only []
      rcases hsr : t.pc.setRemoteDesc currentSD with e | pc2
      · refine ⟨⟨?_, ?_⟩, ?_⟩
        · intro hx
          have he : e = TransportError.iceRestartWithoutLocalSDP := by simpa using hx
          have := setRemoteDesc_err_shape _ _ _ hsr
          rw [he] at this
          exact absurd this (by simp)
        · rintro ⟨-, -, hrd, -⟩
          exact absurd hrd (by simp)
        · intro ld _ _ hrd _
          exact absurd hrd (by simp)
      · refine ⟨⟨?_, ?_⟩, ?_⟩
        · intro hx
          rcases offerTail_fields opts { t with pc := pc2 } with ⟨-, -, -, -, -, -, -, f8⟩
          exact absurd hx f8
        · rintro ⟨-, -, hrd, -⟩
          exact absurd hrd (by simp)
        · intro ld _ _ hrd _
          exact absurd hrd (by simp)
  · rw [if_neg h4]
    refine ⟨⟨?_, fun hx => absurd ⟨hx.1, hx.2.1⟩ h4⟩, ?_⟩
    · by_cases h5 : t.negotiationState = NegotiationState.negotiationStateClient
      · rw [if_pos h5]
        intro hx
        exact absurd hx (by simp)
      · rw [if_neg h5]
        by_cases h6 : t.negotiationState = NegotiationState.negotiationRetry
        · rw [if_pos h6]
          intro hx
          exact absurd hx (by simp)
        · rw [if_neg h6]
          rcases offerTail_fields opts t with ⟨-, -, -, -, -, -, -, f8⟩
          intro hx
          exact absurd hx f8
    · intro ld ha hb _ _
      exact absurd ⟨ha, hb⟩ h4

/-- C6 (witness): a concrete state — restart requested, state
`negotiationStateClient`, no remote and no local description — on which the
offer algorithm returns the sentinel. -/
theorem iceRestartWithoutLocalSDP_witness :
    (createAndSendOffer (some { iceRestart := true })
        { initTransport true with
            negotiationState := NegotiationState.negotiationStateClient }).err
      = some TransportError.iceRestartWithoutLocalSDP := by
  have h := iceRestartWithoutLocalSDP_characterization (some { iceRestart := true })
      { initTransport true with
          negotiationState := NegotiationState.negotiationStateClient } rfl rfl rfl
  exact h.1.mpr ⟨rfl, by decide, rfl, rfl⟩

/-! ## Helper lemmas on SetRemoteDescription -/

theorem setRemoteDescription_drains (sd : SessionDesc) (t : Transport) (pc2 : PeerConn)
    (hnd : ¬((sd.sdpType = SDPType.offer ∧ t.currentOfferIceCredential ≠ ""
        ∧ t.currentOfferIceCredential ≠ sd.iceCredential) ∧ t.pc.gathering = true))
    (hok : t.pc.setRemoteDesc sd = .ok pc2) :
    (setRemoteDescription sd t).t.pendingCandidates = []
    ∧ (setRemoteDescription sd t).t.pc.appliedCandidates
        = t.pc.appliedCandidates ++ t.pendingCandidates
    ∧ (setRemoteDescription sd t).err = Option.none
    ∧ (setRemoteDescription sd t).t.pc.remoteDesc = some sd := by
  rcases setRemoteDesc_ok_fields _ _ _ hok with ⟨g1, g2, g3, g4, g5⟩
  unfold setRemoteDescription
  simp only []
  rw [if_neg hnd, hok]
  simp only []
  by_cases hcred : t.currentOfferIceCredential = ""
      ∨ (sd.sdpType = SDPType.offer ∧ t.currentOfferIceCredential ≠ ""
         ∧ t.currentOfferIceCredential ≠ sd.iceCredential)
  · rw [if_pos hcred]
    simp only []
    rw [drainCandidates_ok t.pendingCandidates pc2 sd g5]
    simp only []
    by_cases hlast : t.negotiationState = NegotiationState.negotiationRetry
        ∧ sd.sdpType = SDPType.answer
    · rw [if_pos hlast]
      refine ⟨?_, ?_, rfl, ?_⟩
      · rw [(createAndSendOffer_fields Option.none _).2.2.2.1]
      · rw [(createAndSendOffer_fields Option.none _).2.2.2.2.1]
        simp only []
        rw [g1]
      · rw [(createAndSendOffer_fields Option.none _).2.2.2.2.2.2]
        simp only []
        rw [g5]
    · rw [if_neg hlast]
      refine ⟨rfl, ?_, rfl, ?_⟩
      · simp only []
        rw [g1]
      · simp only []
        rw [g5]
  · rw [if_neg hcred]
    simp only []
    rw [drainCandidates_ok t.pendingCandidates pc2 sd g5]
    simp only []
    by_cases hlast : t.negotiationState = NegotiationState.negotiationRetry
        ∧ sd.sdpType = SDPType.answer
    · rw [if_pos hlast]
      refine ⟨?_, ?_, rfl, ?_⟩
      · rw [(createAndSendOffer_fields Option.none _).2.2.2.1]
      · rw [(createAndSendOffer_fields Option.none _).2.2.2.2.1]
        simp only []
        rw [g1]
      · rw [(createAndSendOffer_fields Option.none _).2.2.2.2.2.2]
        simp only []
        rw [g5]
    · rw [if_neg hlast]
      refine ⟨rfl, ?_, rfl, ?_⟩
      · simp only []
        rw [g1]
      · simp only []
        rw [g5]

theorem setRemoteDescription_no_offer (sd : SessionDesc) (t : Transport)
    (h : sd.sdpType = SDPType.offer ∨ t.negotiationState ≠ NegotiationState.negotiationRetry) :
    newOfferCount (setRemoteDescription sd t).emits = 0 := by
  unfold setRemoteDescription
  simp only []
  by_cases hdef : (sd.sdpType = SDPType.offer ∧ t.currentOfferIceCredential ≠ ""
      ∧ t.currentOfferIceCredential ≠ sd.iceCredential) ∧ t.pc.gathering = true
  · rw [if_pos hdef]
    simp [newOfferCount]
  · rw [if_neg hdef]
    rcases hsr : t.pc.setRemoteDesc sd with e | pc2
    · simp [newOfferCount]
    · simp only []
      rcases setRemoteDesc_ok_fields _ _ _ hsr with ⟨g1, g2, g3, g4, g5⟩
      have hlast : ¬(t.negotiationState = NegotiationState.negotiationRetry
          ∧ sd.sdpType = SDPType.answer) := by
        rcases h with h | h
        · rintro ⟨-, hb⟩
          rw [h] at hb
          exact SDPType.noConfusion hb
        · rintro ⟨ha, -⟩
          exact h ha
      by_cases hcred : t.currentOfferIceCredential = ""
          ∨ (sd.sdpType = SDPType.offer ∧ t.currentOfferIceCredential ≠ ""
             ∧ t.currentOfferIceCredential ≠ sd.iceCredential)
      · rw [if_pos hcred]
        simp only []
        rw [drainCandidates_ok t.pendingCandidates pc2 sd g5]
        simp only []
        rw [if_neg hlast]
        simp [newOfferCount]
      · rw [if_neg hcred]
        simp only []
        rw [drainCandidates_ok t.pendingCandidates pc2 sd g5]
        simp only []
        rw [if_neg hlast]
        simp [newOfferCount]

theorem createAndSendOffer_plain_idle (t : Transport)
    (h1 : t.onOfferSet = true) (h2 : t.pc.closed = false) (h3 : t.restartAtNextOffer = false)
    (h5 : t.negotiationState = NegotiationState.negotiationStateNone)
    (h6 : t.pc.signaling = SignalingState.stable) :
    newOfferCount (createAndSendOffer Option.none t).emits = 1
    ∧ (createAndSendOffer Option.none t).t.negotiationState
        = NegotiationState.negotiationStateClient := by
  have hir : iceRestartRequested Option.none t = false := by
    simp [iceRestartRequested, h3]
  unfold createAndSendOffer
  rw [if_neg (by simp [h1]), if_neg (by simp [h2])]
  simp only []
  rw [if_neg (by simp [hir]), if_neg (by simp [hir]),
      if_neg (by simp [h5]), if_neg (by simp [h5])]
  unfold offerTail
  simp only [PeerConn.createOffer]
  have hsl : t.pc.setLocalDesc { sdpType := SDPType.offer, iceCredential := "" }
      = .ok { t.pc with
                localDesc := some { sdpType := SDPType.offer, iceCredential := "" },
                signaling := SignalingState.haveLocalOffer, gathering := true } := by
    unfold PeerConn.setLocalDesc
    rw [h6]
  rw [hsl]
  simp [newOfferCount]

/-! ## C4: the pending-candidate queue -/

/-- C4: every ICE candidate delivered before any remote description exists
is appended to the pending queue (the peer connection untouched); and any
successful `SetRemoteDescription` (one that is neither deferred as a
pending restart offer nor rejected by the peer connection) applies every
queued candidate, in arrival order, after which the queue is empty. -/
theorem candidate_queue_drained (c : String) (sd : SessionDesc) (t : Transport) :
    (t.pc.remoteDesc = Option.none →
      addICECandidate c t
        = ({ t with pendingCandidates := t.pendingCandidates ++ [c] }, Option.none))
    ∧ (¬((sd.sdpType = SDPType.offer ∧ t.currentOfferIceCredential ≠ ""
          ∧ t.currentOfferIceCredential ≠ sd.iceCredential) ∧ t.pc.gathering = true) →
       (sd.sdpType = SDPType.answer → t.pc.signaling = SignalingState.haveLocalOffer) →
       (sd.sdpType = SDPType.offer → t.pc.signaling ≠ SignalingState.haveLocalOffer) →
        (setRemoteDescription sd t).t.pendingCandidates = []
        ∧ (setRemoteDescription sd t).t.pc.appliedCandidates
            = t.pc.appliedCandidates ++ t.pendingCandidates
        ∧ (setRemoteDescription sd t).err = Option.none) := by
  constructor
  · intro hrd
    unfold addICECandidate
    rw [hrd]
  · intro hnd hans hoff
    have hok : ∃ pc2, t.pc.setRemoteDesc sd = .ok pc2 := by
      unfold PeerConn.setRemoteDesc
      rcases hty : sd.sdpType
      · have hsig := hoff hty
        rcases hsigc : t.pc.signaling
        · exact ⟨_, rfl⟩
        · exact absurd hsigc hsig
        · exact ⟨_, rfl⟩
      · have hsig := hans hty
        rw [hsig]
        exact ⟨_, rfl⟩
    obtain ⟨pc2, hok⟩ := hok
    obtain ⟨d1, d2, d3, -⟩ := setRemoteDescription_drains sd t pc2 hnd hok
    exact ⟨d1, d2, d3⟩

/-- C4 (witness): a candidate queued before any remote description is
applied by the first successful `SetRemoteDescription` and the queue ends
empty. -/
theorem candidate_queue_witness :
    (setRemoteDescription { sdpType := SDPType.answer, iceCredential := "u:p" }
        (negotiate true (addICECandidate "c1" (initTransport true)).1).t).t.pendingCandidates
      = []
    ∧ (setRemoteDescription { sdpType := SDPType.answer, iceCredential := "u:p" }
        (negotiate true (addICECandidate "c1" (initTransport true)).1).t).t.pc.appliedCandidates
      = ["c1"]
    ∧ (addICECandidate "c1" (initTransport true)).1.pendingCandidates = ["c1"] := by
  have h := (candidate_queue_drained "c1" { sdpType := SDPType.answer, iceCredential := "u:p" }
      (negotiate true (addICECandidate "c1" (initTransport true)).1).t).2
      (by decide) (by decide) (by decide)
  exact ⟨h.1, h.2.1.trans (by decide), by decide⟩

/-! ## C5: follow-up offer after a queued retry -/

/-- C5: when `SetRemoteDescription` applies an answer while the state
immediately before was `negotiationRetry` (with a callback registered, the
peer connection open and awaiting that answer, and no one-shot restart flag
pending), exactly one new local offer is generated immediately and the
state returns to `negotiationStateClient`; and no follow-up offer is ever
generated when the description is an offer or the previous state was not
`negotiationRetry`. -/
theorem retry_queued_follow_up_offer (sd : SessionDesc) (t : Transport) :
    ((t.onOfferSet = true) → (t.pc.closed = false) → (t.restartAtNextOffer = false) →
     (t.negotiationState = NegotiationState.negotiationRetry) →
     (t.pc.signaling = SignalingState.haveLocalOffer) →
     (sd.sdpType = SDPType.answer) →
      newOfferCount (setRemoteDescription sd t).emits = 1
      ∧ (setRemoteDescription sd t).t.negotiationState
          = NegotiationState.negotiationStateClient)
    ∧ ((sd.sdpType = SDPType.offer ∨ t.negotiationState ≠ NegotiationState.negotiationRetry) →
        newOfferCount (setRemoteDescription sd t).emits = 0) := by
  constructor
  · intro h1 h2 h3 h5 h6 h7
    have hnd : ¬((sd.sdpType = SDPType.offer ∧ t.currentOfferIceCredential ≠ ""
        ∧ t.currentOfferIceCredential ≠ sd.iceCredential) ∧ t.pc.gathering = true) := by
      rintro ⟨⟨ha, -⟩, -⟩
      rw [h7] at ha
      exact SDPType.noConfusion ha
    have hok : t.pc.setRemoteDesc sd
        = .ok { t.pc with remoteDesc := some sd, signaling := SignalingState.stable } := by
      unfold PeerConn.setRemoteDesc
      rw [h7, h6]
    unfold setRemoteDescription
    simp only []
    rw [if_neg hnd, hok]
    simp only []
    by_cases hcred : t.currentOfferIceCredential = ""
        ∨ (sd.sdpType = SDPType.offer ∧ t.currentOfferIceCredential ≠ ""
           ∧ t.currentOfferIceCredential ≠ sd.iceCredential)
    · rw [if_pos hcred]
      simp only []
      rw [drainCandidates_ok t.pendingCandidates
          { t.pc with remoteDesc := some sd, signaling := SignalingState.stable } sd rfl]
      simp only []
      rw [if_pos ⟨h5, h7⟩]
      exact createAndSendOffer_plain_idle _ h1 h2 h3 rfl rfl
    · rw [if_neg hcred]
      simp only []
      rw [drainCandidates_ok t.pendingCandidates
          { t.pc with remoteDesc := some sd, signaling := SignalingState.stable } sd rfl]
      simp only []
      rw [if_pos ⟨h5, h7⟩]
      exact createAndSendOffer_plain_idle _ h1 h2 h3 rfl rfl
  · exact setRemoteDescription_no_offer sd t

/-- C5 (witness): two forced `Negotiate` calls put the transport in
`negotiationRetry`; delivering the answer then produces exactly one
follow-up offer and the state returns to `negotiationStateClient`. -/
theorem retry_queued_witness :
    newOfferCount (setRemoteDescription { sdpType := SDPType.answer, iceCredential := "u:p" }
        (negotiate true (negotiate true (initTransport true)).t).t).emits = 1
    ∧ (setRemoteDescription { sdpType := SDPType.answer, iceCredential := "u:p" }
        (negotiate true (negotiate true (initTransport true)).t).t).t.negotiationState
      = NegotiationState.negotiationStateClient :=
  (retry_queued_follow_up_offer { sdpType := SDPType.answer, iceCredential := "u:p" }
      (negotiate true (negotiate true (initTransport true)).t).t).1
    (by decide) (by decide) (by decide) (by decide) (by decide) (by decide)

theorem setRemoteDescription_pendingRestart (sd : SessionDesc) (t : Transport) :
    (setRemoteDescription sd t).t.pendingRestartIceOffer = t.pendingRestartIceOffer
    ∨ ((setRemoteDescription sd t).t.pendingRestartIceOffer = some sd
        ∧ t.pc.gathering = true) := by
  unfold setRemoteDescription
  simp only []
  by_cases hdef : (sd.sdpType = SDPType.offer ∧ t.currentOfferIceCredential ≠ ""
      ∧ t.currentOfferIceCredential ≠ sd.iceCredential) ∧ t.pc.gathering = true
  · right
    rw [if_pos hdef]
    exact ⟨rfl, hdef.2⟩
  · left
    rw [if_neg hdef]
    rcases hsr : t.pc.setRemoteDesc sd with e | pc2
    · rfl
    · simp only []
      rcases setRemoteDesc_ok_fields _ _ _ hsr with ⟨-, -, -, -, g5⟩
      by_cases hcred : t.currentOfferIceCredential = ""
          ∨ (sd.sdpType = SDPType.offer ∧ t.currentOfferIceCredential ≠ ""
             ∧ t.currentOfferIceCredential ≠ sd.iceCredential)
      · rw [if_pos hcred]
        simp only []
        rw [drainCandidates_ok t.pendingCandidates pc2 sd g5]
        simp only []
        by_cases hlast : t.negotiationState = NegotiationState.negotiationRetry
            ∧ sd.sdpType = SDPType.answer
        · rw [if_pos hlast]
          rw [(createAndSendOffer_fields Option.none _).2.2.2.2.2.1]
        · rw [if_neg hlast]
      · rw [if_neg hcred]
        simp only []
        rw [drainCandidates_ok t.pendingCandidates pc2 sd g5]
        simp only []
        by_cases hlast : t.negotiationState = NegotiationState.negotiationRetry
            ∧ sd.sdpType = SDPType.answer
        · rw [if_pos hlast]
          rw [(createAndSendOffer_fields Option.none _).2.2.2.2.2.1]
        · rw [if_neg hlast]

theorem addICECandidate_frame (c : String) (t : Transport) :
    (addICECandidate c t).1.pendingRestartIceOffer = t.pendingRestartIceOffer
    ∧ (addICECandidate c t).1.pc.remoteDesc = t.pc.remoteDesc := by
  unfold addICECandidate PeerConn.addCandidate
  rcases hrd : t.pc.remoteDesc with _ | x
  · exact ⟨rfl, hrd⟩
  · simp only []
    exact ⟨trivial, trivial⟩

/-! ## C3: a remote ICE-restart offer arriving while gathering -/

/-- C3: an offer whose ICE credential differs from a non-empty stored
`currentOfferIceCredential` while the ICE gathering state is Gathering is
stored in `pendingRestartIceOffer` and `SetRemoteDescription` returns
success without mutating the peer connection; the gathering-complete hook
(when no restart-after-gathering is pending) takes and clears the deferred
offer and applies it via `SetRemoteDescription` — so it is applied exactly
once, the slot is empty afterwards, and (when the peer connection accepts
it) it becomes the remote description; and no other operation consumes the
slot: the offer algorithm and `AddICECandidate` leave both the slot and the
remote description untouched, and another `SetRemoteDescription` call
either leaves the slot alone or overwrites it with its own deferred
offer. -/
theorem pending_restart_offer_deferred (sd o : SessionDesc) (t u t2 : Transport)
    (opts : Option OfferOptions) (c : String)
    (hra : u.restartAfterGathering = false)
    (hpo : u.pendingRestartIceOffer = some o) :
    ((sd.sdpType = SDPType.offer → t.currentOfferIceCredential ≠ "" →
      t.currentOfferIceCredential ≠ sd.iceCredential → t.pc.gathering = true →
        setRemoteDescription sd t
          = ⟨{ t with pendingRestartIceOffer := some sd }, [], Option.none⟩))
    ∧ onICEGatheringComplete u
        = setRemoteDescription o
            { u with pc := { u.pc with gathering := false },
                     pendingRestartIceOffer := Option.none }
    ∧ (onICEGatheringComplete u).t.pendingRestartIceOffer = Option.none
    ∧ (o.sdpType = SDPType.offer → u.pc.signaling ≠ SignalingState.haveLocalOffer →
        (onICEGatheringComplete u).t.pc.remoteDesc = some o)
    ∧ ((createAndSendOffer opts t2).t.pendingRestartIceOffer = t2.pendingRestartIceOffer
       ∧ (createAndSendOffer opts t2).t.pc.remoteDesc = t2.pc.remoteDesc
       ∧ (addICECandidate c t2).1.pendingRestartIceOffer = t2.pendingRestartIceOffer
       ∧ (addICECandidate c t2).1.pc.remoteDesc = t2.pc.remoteDesc
       ∧ ((setRemoteDescription sd t2).t.pendingRestartIceOffer = t2.pendingRestartIceOffer
          ∨ (setRemoteDescription sd t2).t.pendingRestartIceOffer = some sd)) := by
  have hB : onICEGatheringComplete u
      = setRemoteDescription o
          { u with pc := { u.pc with gathering := false },
                   pendingRestartIceOffer := Option.none } := by
    unfold onICEGatheringComplete
    simp only []
    rw [if_neg (by simp [hra]), hpo]
  refine ⟨?_, hB, ?_, ?_, ?_⟩
  · intro h1 h2 h3 h4
    unfold setRemoteDescription
    simp only []
    rw [if_pos ⟨⟨h1, h2, h3⟩, h4⟩]
  · rw [hB]
    rcases setRemoteDescription_pendingRestart o
        { u with pc := { u.pc with gathering := false },
                 pendingRestartIceOffer := Option.none } with h | ⟨-, hg⟩
    · exact h
    · exact absurd hg (by simp)
  · intro hty hsig
    rw [hB]
    have hok : ∃ pc2,
        ({ u with pc := { u.pc with gathering := false },
                  pendingRestartIceOffer := Option.none } : Transport).pc.setRemoteDesc o
          = .ok pc2 := by
      unfold PeerConn.setRemoteDesc
      simp only []
      rcases hsigc : u.pc.signaling
      · rw [hty]
        exact ⟨_, rfl⟩
      · exact absurd hsigc hsig
      · rw [hty]
        exact ⟨_, rfl⟩
    obtain ⟨pc2, hok⟩ := hok
    obtain ⟨-, -, -, hrd⟩ := setRemoteDescription_drains o
        { u with pc := { u.pc with gathering := false },
                 pendingRestartIceOffer := Option.none } pc2
        (by rintro ⟨-, hg⟩; exact absurd hg (by simp)) hok
    exact hrd
  · rcases createAndSendOffer_fields opts t2 with ⟨-, -, -, -, -, f6, f7⟩
    rcases addICECandidate_frame c t2 with ⟨a1, a2⟩
    refine ⟨f6, f7, a1, a2, ?_⟩
    rcases setRemoteDescription_pendingRestart sd t2 with h | ⟨h, -⟩
    · exact Or.inl h
    · exact Or.inr h

/-- C3 (witness): with a stored credential `"a:a"` and gathering in
progress, a remote offer with credential `"b:b"` is deferred; once
gathering completes the hook applies it: the slot is cleared and the offer
becomes the remote description. -/
theorem pending_restart_witness :
    (setRemoteDescription { sdpType := SDPType.offer, iceCredential := "b:b" }
        { initTransport true with
            currentOfferIceCredential := "a:a",
            pc := { (initTransport true).pc with gathering := true } }).t.pendingRestartIceOffer
      = some { sdpType := SDPType.offer, iceCredential := "b:b" }
    ∧ (onICEGatheringComplete
        { initTransport true with
            currentOfferIceCredential := "a:a",
            pc := { (initTransport true).pc with gathering := true },
            pendingRestartIceOffer :=
              some { sdpType := SDPType.offer, iceCredential := "b:b" } }).t.pendingRestartIceOffer
      = Option.none
    ∧ (onICEGatheringComplete
        { initTransport true with
            currentOfferIceCredential := "a:a",
            pc := { (initTransport true).pc with gathering := true },
            pendingRestartIceOffer :=
              some { sdpType := SDPType.offer, iceCredential := "b:b" } }).t.pc.remoteDesc
      = some { sdpType := SDPType.offer, iceCredential := "b:b" } := by
  have h := pending_restart_offer_deferred
      { sdpType := SDPType.offer, iceCredential := "b:b" }
      { sdpType := SDPType.offer, iceCredential := "b:b" }
      { initTransport true with
          currentOfferIceCredential := "a:a",
          pc := { (initTransport true).pc with gathering := true } }
      { initTransport true with
          currentOfferIceCredential := "a:a",
          pc := { (initTransport true).pc with gathering := true },
          pendingRestartIceOffer :=
            some { sdpType := SDPType.offer, iceCredential := "b:b" } }
      (initTransport true) Option.none "c"
      (by decide) (by decide)
  refine ⟨?_, h.2.2.1, h.2.2.2.1 (by decide) (by decide)⟩
  rw [h.1 (by decide) (by decide) (by decide) (by decide)]

/-! ## Helper lemmas for the outstanding-offer invariant (C1) -/

theorem setRemoteDesc_ok_signaling (pc : PeerConn) (sd : SessionDesc) (pc2 : PeerConn)
    (h : pc.setRemoteDesc sd = .ok pc2) :
    (sd.sdpType = SDPType.answer →
      pc.signaling = SignalingState.haveLocalOffer ∧ pc2.signaling = SignalingState.stable)
    ∧ (sd.sdpType = SDPType.offer →
      pc.signaling ≠ SignalingState.haveLocalOffer
      ∧ pc2.signaling ≠ SignalingState.haveLocalOffer) := by
  unfold PeerConn.setRemoteDesc at h
  rcases hty : sd.sdpType <;> rcases hsig : pc.signaling <;> rw [hty, hsig] at h <;>
    first
      | exact Except.noConfusion h
      | (injection h with h; subst h;
         refine ⟨fun hx => ?_, fun hx => ?_⟩ <;> simp_all)

theorem createAndSendOffer_busy_no_offer (t : Transport)
    (h3 : t.restartAtNextOffer = false)
    (hs : t.negotiationState ≠ NegotiationState.negotiationStateNone) :
    newOfferCount (createAndSendOffer Option.none t).emits = 0 := by
  have hir : iceRestartRequested Option.none t = false := by
    simp [iceRestartRequested, h3]
  unfold createAndSendOffer
  by_cases h1 : t.onOfferSet = false
  · rw [if_pos h1]
    simp [newOfferCount]
  · rw [if_neg h1]
    by_cases h2 : t.pc.closed = true
    · rw [if_pos h2]
      simp [newOfferCount]
    · rw [if_neg h2]
      simp only []
      rw [if_neg (by simp [hir]), if_neg (by simp [hir])]
      by_cases h5 : t.negotiationState = NegotiationState.negotiationStateClient
      · rw [if_pos h5]
        simp [newOfferCount]
      · rw [if_neg h5]
        have h6 : t.negotiationState = NegotiationState.negotiationRetry := by
          rcases hstate : t.negotiationState
          · exact absurd hstate hs
          · exact absurd hstate h5
          · rfl
        rw [if_pos h6]
        simp [newOfferCount]

theorem createAndSendOffer_plain_inv (t : Transport)
    (h3 : t.restartAtNextOffer = false) (hpa : t.previousAnswer = Option.none)
    (hiff : t.negotiationState = NegotiationState.negotiationStateNone
        ↔ t.pc.signaling ≠ SignalingState.haveLocalOffer) :
    (createAndSendOffer Option.none t).t.restartAtNextOffer = false
    ∧ (createAndSendOffer Option.none t).t.previousAnswer = Option.none
    ∧ ((createAndSendOffer Option.none t).t.negotiationState
          = NegotiationState.negotiationStateNone
        ↔ (createAndSendOffer Option.none t).t.pc.signaling
          ≠ SignalingState.haveLocalOffer)
    ∧ (if (createAndSendOffer Option.none t).t.negotiationState
          = NegotiationState.negotiationStateNone then 0 else 1)
        = (if t.negotiationState = NegotiationState.negotiationStateNone then 0 else 1)
          + newOfferCount (createAndSendOffer Option.none t).emits := by
  have hir : iceRestartRequested Option.none t = false := by
    simp [iceRestartRequested, h3]
  unfold createAndSendOffer
  by_cases h1 : t.onOfferSet = false
  · rw [if_pos h1]
    exact ⟨h3, hpa, hiff, by simp [newOfferCount]⟩
  · rw [if_neg h1]
    by_cases h2 : t.pc.closed = true
    · rw [if_pos h2]
      exact ⟨h3, hpa, hiff, by simp [newOfferCount]⟩
    · rw [if_neg h2]
      simp only []
      rw [if_neg (by simp [hir]), if_neg (by simp [hir])]
      by_cases h5 : t.negotiationState = NegotiationState.negotiationStateClient
      · rw [if_pos h5]
        have hsig : t.pc.signaling = SignalingState.haveLocalOffer := by
          by_contra hx
          rw [hiff.mpr hx] at h5
          exact NegotiationState.noConfusion h5
        refine ⟨h3, hpa, ?_, ?_⟩
        · simp [hsig]
        · rw [h5]
          simp [newOfferCount]
      · rw [if_neg h5]
        by_cases h6 : t.negotiationState = NegotiationState.negotiationRetry
        · rw [if_pos h6]
          have hsig : t.pc.signaling = SignalingState.haveLocalOffer := by
            by_contra hx
            rw [hiff.mpr hx] at h6
            exact NegotiationState.noConfusion h6
          refine ⟨h3, hpa, ?_, ?_⟩
          · rw [h6]
            simp [hsig]
          · rw [h6]
            simp [newOfferCount]
        · have h7 : t.negotiationState = NegotiationState.negotiationStateNone := by
            rcases hstate : t.negotiationState
            · rfl
            · exact absurd hstate h5
            · exact absurd hstate h6
          rw [if_neg h6]
          unfold offerTail
          simp only [PeerConn.createOffer]
          have hx : (∃ e, t.pc.setLocalDesc { sdpType := SDPType.offer, iceCredential := "" }
                  = Except.error e)
              ∨ (∃ pc2, t.pc.setLocalDesc { sdpType := SDPType.offer, iceCredential := "" }
                  = Except.ok pc2) := by
            cases t.pc.setLocalDesc { sdpType := SDPType.offer, iceCredential := "" } with
            | error e => exact Or.inl ⟨e, rfl⟩
            | ok pc2 => exact Or.inr ⟨pc2, rfl⟩
          rcases hx with ⟨e, hsl⟩ | ⟨pc2, hsl⟩
          · simp only [hsl]
            refine ⟨trivial, trivial, ?_, ?_⟩
            · exact iff_of_true h7 (hiff.mp h7)
            · rw [h7]
              simp [newOfferCount]
          · simp only [hsl]
            rcases setLocalDesc_ok_fields _ _ _ hsl with ⟨-, -, -, -, fsig⟩
            refine ⟨trivial, trivial, ?_, ?_⟩
            · simp [fsig]
            · rw [h7]
              simp [newOfferCount]

theorem setRemoteDescription_inv (sd : SessionDesc) (t : Transport)
    (h3 : t.restartAtNextOffer = false) (hpa : t.previousAnswer = Option.none)
    (hiff : t.negotiationState = NegotiationState.negotiationStateNone
        ↔ t.pc.signaling ≠ SignalingState.haveLocalOffer) :
    (setRemoteDescription sd t).t.restartAtNextOffer = false
    ∧ (setRemoteDescription sd t).t.previousAnswer = Option.none
    ∧ ((setRemoteDescription sd t).t.negotiationState
          = NegotiationState.negotiationStateNone
        ↔ (setRemoteDescription sd t).t.pc.signaling ≠ SignalingState.haveLocalOffer)
    ∧ (if (setRemoteDescription sd t).t.negotiationState
          = NegotiationState.negotiationStateNone then 0 else 1)
        = (if ((sd.sdpType = SDPType.answer : Bool)
              && ((setRemoteDescription sd t).err = Option.none : Bool)) = true then 0
           else (if t.negotiationState = NegotiationState.negotiationStateNone then 0 else 1))
          + newOfferCount (setRemoteDescription sd t).emits := by
  unfold setRemoteDescription
  simp only []
  by_cases hdef : (sd.sdpType = SDPType.offer ∧ t.currentOfferIceCredential ≠ ""
      ∧ t.currentOfferIceCredential ≠ sd.iceCredential) ∧ t.pc.gathering = true
  · rw [if_pos hdef]
    obtain ⟨⟨hty, -, -⟩, -⟩ := hdef
    refine ⟨h3, hpa, hiff, ?_⟩
    rw [hty]
    simp [newOfferCount]
  · rw [if_neg hdef]
    have hx : (∃ e, t.pc.setRemoteDesc sd = Except.error e)
        ∨ (∃ pc2, t.pc.setRemoteDesc sd = Except.ok pc2) := by
      cases t.pc.setRemoteDesc sd with
      | error e => exact Or.inl ⟨e, rfl⟩
      | ok pc2 => exact Or.inr ⟨pc2, rfl⟩
    rcases hx with ⟨e, hsr⟩ | ⟨pc2, hsr⟩
    · simp only [hsr]
      refine ⟨h3, hpa, hiff, ?_⟩
      simp [newOfferCount]
    · simp only [hsr]
      rcases setRemoteDesc_ok_fields _ _ _ hsr with ⟨g1, g2, g3, g4, g5⟩
      rcases setRemoteDesc_ok_signaling _ _ _ hsr with ⟨gans, goff⟩
      by_cases hcred : t.currentOfferIceCredential = ""
          ∨ (sd.sdpType = SDPType.offer ∧ t.currentOfferIceCredential ≠ ""
             ∧ t.currentOfferIceCredential ≠ sd.iceCredential)
      · rw [if_pos hcred]
        simp only []
        rw [drainCandidates_ok t.pendingCandidates pc2 sd g5]
        simp only []
        by_cases hlast : t.negotiationState = NegotiationState.negotiationRetry
            ∧ sd.sdpType = SDPType.answer
        · simp only [if_pos hlast]
          obtain ⟨hretry, hty⟩ := hlast
          have hsig2 : pc2.signaling = SignalingState.stable := (gans hty).2
          refine ⟨(createAndSendOffer_plain_inv _ (by exact h3) (by exact hpa)
                    (by simp [hsig2])).1,
                  (createAndSendOffer_plain_inv _ (by exact h3) (by exact hpa)
                    (by simp [hsig2])).2.1,
                  (createAndSendOffer_plain_inv _ (by exact h3) (by exact hpa)
                    (by simp [hsig2])).2.2.1, ?_⟩
          rw [hty]
          refine Eq.trans ((createAndSendOffer_plain_inv _ (by exact h3) (by exact hpa)
              (by simp [hsig2])).2.2.2) ?_
          simp [newOfferCount]
        · simp only [if_neg hlast]
          refine ⟨h3, hpa, ?_, ?_⟩
          · have hns : pc2.signaling ≠ SignalingState.haveLocalOffer := by
              rcases hty2 : sd.sdpType
              · exact (goff hty2).2
              · rw [(gans hty2).2]
                exact fun hx => SignalingState.noConfusion hx
            simp [hns]
          · by_cases hty2 : sd.sdpType = SDPType.answer
            · rw [hty2]
              simp [newOfferCount]
            · have hty3 : sd.sdpType = SDPType.offer := by
                rcases hh : sd.sdpType
                · rfl
                · exact absurd hh hty2
              have hstate0 : t.negotiationState = NegotiationState.negotiationStateNone :=
                hiff.mpr (goff hty3).1
              rw [hstate0, hty3]
              simp [newOfferCount]
      · rw [if_neg hcred]
        simp only []
        rw [drainCandidates_ok t.pendingCandidates pc2 sd g5]
        simp only []
        by_cases hlast : t.negotiationState = NegotiationState.negotiationRetry
            ∧ sd.sdpType = SDPType.answer
        · simp only [if_pos hlast]
          obtain ⟨hretry, hty⟩ := hlast
          have hsig2 : pc2.signaling = SignalingState.stable := (gans hty).2
          refine ⟨(createAndSendOffer_plain_inv _ (by exact h3) (by exact hpa)
                    (by simp [hsig2])).1,
                  (createAndSendOffer_plain_inv _ (by exact h3) (by exact hpa)
                    (by simp [hsig2])).2.1,
                  (createAndSendOffer_plain_inv _ (by exact h3) (by exact hpa)
                    (by simp [hsig2])).2.2.1, ?_⟩
          rw [hty]
          refine Eq.trans ((createAndSendOffer_plain_inv _ (by exact h3) (by exact hpa)
              (by simp [hsig2])).2.2.2) ?_
          simp [newOfferCount]
        · simp only [if_neg hlast]
          refine ⟨h3, hpa, ?_, ?_⟩
          · have hns : pc2.signaling ≠ SignalingState.haveLocalOffer := by
              rcases hty2 : sd.sdpType
              · exact (goff hty2).2
              · rw [(gans hty2).2]
                exact fun hx => SignalingState.noConfusion hx
            simp [hns]
          · by_cases hty2 : sd.sdpType = SDPType.answer
            · rw [hty2]
              simp [newOfferCount]
            · have hty3 : sd.sdpType = SDPType.offer := by
                rcases hh : sd.sdpType
                · rfl
                · exact absurd hh hty2
              have hstate0 : t.negotiationState = NegotiationState.negotiationStateNone :=
                hiff.mpr (goff hty3).1
              rw [hstate0, hty3]
              simp [newOfferCount]

theorem negInv_init (b : Bool) : NegInv 0 (initTransport b) := by
  refine ⟨rfl, rfl, ⟨fun _ hx => SignalingState.noConfusion hx, fun _ => rfl⟩, rfl⟩

theorem negInv_step (o : Nat) (t : Transport) (ev : NegEvent) (h : NegInv o t) :
    NegInv (outstandingStep o t ev) (negStep t ev).t := by
  obtain ⟨h3, hpa, hiff, ho⟩ := h
  cases ev with
  | negotiate f =>
    obtain ⟨a1, a2, a3, a4⟩ := createAndSendOffer_plain_inv t h3 hpa hiff
    refine ⟨a1, a2, a3, ?_⟩
    have he : outstandingStep o t (NegEvent.negotiate f)
        = o + newOfferCount (createAndSendOffer Option.none t).emits := rfl
    rw [he, ho]
    exact a4.symm
  | remoteDescription sd =>
    obtain ⟨a1, a2, a3, a4⟩ := setRemoteDescription_inv sd t h3 hpa hiff
    refine ⟨a1, a2, a3, ?_⟩
    have he : outstandingStep o t (NegEvent.remoteDescription sd)
        = (if ((sd.sdpType = SDPType.answer : Bool)
              && ((setRemoteDescription sd t).err = Option.none : Bool)) = true then 0 else o)
          + newOfferCount (setRemoteDescription sd t).emits := rfl
    rw [he, ho]
    exact a4.symm

theorem negInv_run (evs : List NegEvent) :
    ∀ (o : Nat) (t : Transport), NegInv o t →
      NegInv (runOutstanding (o, t) evs).1 (runOutstanding (o, t) evs).2 := by
  induction evs with
  | nil => intro o t h; exact h
  | cons ev evs ih =>
    intro o t h
    exact ih (outstandingStep o t ev) (negStep t ev).t (negInv_step o t ev h)

/-! ## C1: at most one outstanding local offer -/

/-- C1: over every sequence of `Negotiate` and `SetRemoteDescription`
calls on one transport there is at any time at most one outstanding
locally-initiated offer (an emitted fresh offer counts as outstanding until
an answer is applied; the queued-retry follow-up emitted in the same call
as the answer is the one new outstanding offer); and while the negotiation
state is `negotiationStateClient` (awaiting the answer) or
`negotiationRetry`, the offer algorithm produces no fresh offer. -/
theorem at_most_one_outstanding_offer (b : Bool) (evs : List NegEvent) (u : Transport) :
    (runOutstanding (0, initTransport b) evs).1 ≤ 1
    ∧ (u.restartAtNextOffer = false →
       u.negotiationState ≠ NegotiationState.negotiationStateNone →
       newOfferCount (createAndSendOffer Option.none u).emits = 0) := by
  constructor
  · obtain ⟨-, -, -, ho⟩ := negInv_run evs 0 (initTransport b) (negInv_init b)
    rw [ho]
    split
    · decide
    · decide
  · intro hu1 hu2
    exact createAndSendOffer_busy_no_offer u hu1 hu2

/-- C1 (witness): the offer-burst / answer scenario evaluated concretely:
two negotiations and the answer leave at most one outstanding offer at the
end, and a busy transport produces no fresh offer. -/
theorem at_most_one_outstanding_witness :
    (runOutstanding (0, initTransport true)
        [NegEvent.negotiate true, NegEvent.negotiate false,
         NegEvent.remoteDescription { sdpType := SDPType.answer, iceCredential := "u:p" }]).1
      ≤ 1
    ∧ newOfferCount (createAndSendOffer Option.none
        (negotiate true (initTransport true)).t).emits = 0 := by
  refine ⟨(at_most_one_outstanding_offer true
      [NegEvent.negotiate true, NegEvent.negotiate false,
       NegEvent.remoteDescription { sdpType := SDPType.answer, iceCredential := "u:p" }]
      (initTransport true)).1, ?_⟩
  exact (at_most_one_outstanding_offer true []
      (negotiate true (initTransport true)).t).2 (by decide) (by decide)

end LiveKit
